import Mathlib

/-!
Verification development for the DecentralizedCompute repository
(ShelbyCompute minimal backend, `provider-agent/main.py`, and the provider
node agent, `provider-agent/agent.py`).

The backend keeps its state in SQLite tables `nodes`, `jobs`, `provenance`
and `logs`.  We embed each table as a list of rows in rowid (insertion)
order, and each HTTP handler as a function `DB → args → DB × Except Nat r`:
the returned `Except` is the HTTP response, `Except.error n` standing for
an `HTTPException(status_code = n)` (for a duplicate-primary-key `INSERT`,
the uncaught `sqlite3.IntegrityError`, surfaced as a 500 response).
-/

/-- A JSON-ish scalar value, enough for the `Dict[str, Any]` metadata and
spec blobs that the handlers store verbatim. -/
inductive JVal where
  | s (v : String)
  | n (v : Nat)
  | nullv
deriving DecidableEq

/-- A JSON object: the `meta` / `metadata` / `info` dictionaries. -/
abbrev JMeta := List (String × JVal)

/-- The JSON blob stored in the `payload` column of `jobs`
(built in `create_job`). -/
structure Payload where
  jobId : String
  datasetName : String
  datasetUrl : Option String
  datasetHash : Option String
  meta : JMeta
  createdAt : Nat
deriving DecidableEq

/-- The JSON blob stored in the `result` column of `jobs`
(written by `finish_job`: keys `modelHash` and `meta`). -/
structure JobResult where
  modelHash : String
  meta : JMeta
deriving DecidableEq

/-- A row of the `jobs` table (`job_id` is the PRIMARY KEY). -/
structure Job where
  jobId : String
  status : String
  payload : Payload
  createdAt : Nat
  assignedNode : Option String
  startedAt : Option Nat
  finishedAt : Option Nat
  result : Option JobResult
deriving DecidableEq

/-- A row of the `nodes` table (`node_id` is the PRIMARY KEY). -/
structure Node where
  nodeId : String
  info : JMeta
  lastSeen : Nat
deriving DecidableEq

/-- The JSON `record` blob written into `provenance` by `finish_job`. -/
structure ProvRecord where
  jobId : String
  nodeId : String
  modelHash : String
  modelSizeBytes : Nat
  durationSeconds : Nat
  metadata : JMeta
  ts : Nat
deriving DecidableEq

/-- A row of the `provenance` table. -/
structure ProvRow where
  id : String
  jobId : String
  record : ProvRecord
  createdAt : Nat
deriving DecidableEq

/-- A row of the `logs` table (kept in autoincrement id order). -/
structure LogRow where
  jobId : String
  line : String
  ts : Nat
deriving DecidableEq

/-- The SQLite database: each table as a list of rows in rowid order. -/
structure DB where
  nodes : List Node
  jobs : List Job
  provenance : List ProvRow
  logs : List LogRow
deriving DecidableEq

/-- Request body of `POST /api/jobs/finish` (`FinishJobIn`). -/
structure FinishIn where
  nodeId : String
  jobId : String
  modelHash : String
  modelSizeBytes : Nat
  metadata : JMeta
  durationSeconds : Nat
deriving DecidableEq

/-- Request body of `POST /api/jobs/create` (`JobCreateIn`). -/
structure JobCreateIn where
  jobId : Option String
  datasetName : String
  datasetUrl : Option String
  datasetHash : Option String
  meta : JMeta
deriving DecidableEq

/-! ## Backend handlers (from `provider-agent/main.py`) -/

/-- `POST /api/nodes/heartbeat`: runs
`UPDATE nodes SET last_seen = ? WHERE node_id = ?` and returns
`{"status": "ok"}` unconditionally (the affected row count is not
inspected). -/
def heartbeat (db : DB) (nodeId : String) (now : Nat) : DB × Except Nat String :=
  ({ db with
      nodes := db.nodes.map fun nd =>
        if nd.nodeId == nodeId then { nd with lastSeen := now } else nd },
   Except.ok "ok")

/-- The fresh row inserted by `create_job`. -/
def newJob (jid : String) (inp : JobCreateIn) (now : Nat) : Job :=
  { jobId := jid
    status := "pending"
    payload :=
      { jobId := jid, datasetName := inp.datasetName, datasetUrl := inp.datasetUrl,
        datasetHash := inp.datasetHash, meta := inp.meta, createdAt := now }
    createdAt := now
    assignedNode := none
    startedAt := none
    finishedAt := none
    result := none }

/-- `POST /api/jobs/create`: `job_id = job.jobId or str(uuid.uuid4())`
(the Python `or` falls through on an empty string), then a plain
`INSERT INTO jobs`.  `job_id` is the table's PRIMARY KEY, so when a row
with the same id already exists the `INSERT` raises
`sqlite3.IntegrityError`, no row is written, and the uncaught exception
surfaces as a 500 response. -/
def create_job (db : DB) (inp : JobCreateIn) (freshId : String) (now : Nat) :
    DB × Except Nat String :=
  let jid := match inp.jobId with
    | some s => if s = "" then freshId else s
    | none => freshId
  if db.jobs.any (fun r => r.jobId == jid) then
    (db, Except.error 500)
  else
    ({ db with jobs := db.jobs ++ [newJob jid inp now] }, Except.ok jid)

/-- Row predicate of `ack_job`'s conditional `UPDATE ... WHERE job_id = ?
AND status = 'pending'`. -/
def ackPred (jobId : String) (r : Job) : Bool :=
  r.jobId == jobId && r.status == "pending"

/-- Field assignment performed by `ack_job`'s `UPDATE` on a matching row. -/
def ackRow (nodeId : String) (now : Nat) (r : Job) : Job :=
  { r with status := "assigned", assignedNode := some nodeId, startedAt := some now }

/-- `POST /api/jobs/ack`: the single conditional update
`UPDATE jobs SET status='assigned', assigned_node=?, started_at=?
WHERE job_id=? AND status='pending'`; if the affected row count is zero,
respond 400 ("Job not available for assignment"), leaving every row as it
was (the update matched nothing). -/
def ack_job (db : DB) (nodeId jobId : String) (now : Nat) : DB × Except Nat String :=
  let updated := db.jobs.countP (fun r => ackPred jobId r)
  if updated = 0 then
    (db, Except.error 400)
  else
    ({ db with
        jobs := db.jobs.map fun r =>
          if ackPred jobId r then ackRow nodeId now r else r },
     Except.ok "ok")

/-- The view of a job returned by `poll_for_job`, built from the fields of
the stored `payload` JSON. -/
structure PollJob where
  jobId : String
  datasetName : String
  datasetUrl : Option String
  meta : JMeta
  createdAt : Nat
deriving DecidableEq

/-- Build the `{"job": ...}` response object from a selected row. -/
def pollView (r : Job) : PollJob :=
  { jobId := r.payload.jobId, datasetName := r.payload.datasetName,
    datasetUrl := r.payload.datasetUrl, meta := r.payload.meta,
    createdAt := r.payload.createdAt }

/-- `SELECT ... WHERE status = 'pending' ORDER BY created_at LIMIT 1`:
scan the filtered rows in rowid order keeping the row with the smallest
`created_at`; a later row replaces the incumbent only when strictly
smaller, so ties go to the earlier (first-inserted) row. -/
def oldestFrom (f : Job) (rest : List Job) : Job :=
  rest.foldl (fun best r => if r.createdAt < best.createdAt then r else best) f

/-- `GET /api/jobs/poll`: read-only selection of the oldest pending job
(no `UPDATE`/`INSERT` is executed; the comment in the source says
"assign tentatively but keep status pending until ack"). -/
def poll_for_job (db : DB) : DB × Option PollJob :=
  match db.jobs.filter (fun r => r.status == "pending") with
  | [] => (db, none)
  | f :: rest => (db, some (pollView (oldestFrom f rest)))

/-- Field assignment performed by `finish_job`'s unconditional
`UPDATE jobs SET status='finished', finished_at=?, result=? WHERE job_id=?`. -/
def finishRow (fin : FinishIn) (now : Nat) (r : Job) : Job :=
  { r with status := "finished", finishedAt := some now,
           result := some { modelHash := fin.modelHash, meta := fin.metadata } }

/-- The provenance `record` JSON built by `finish_job`. -/
def mkProvRecord (fin : FinishIn) (now : Nat) : ProvRecord :=
  { jobId := fin.jobId, nodeId := fin.nodeId, modelHash := fin.modelHash,
    modelSizeBytes := fin.modelSizeBytes, durationSeconds := fin.durationSeconds,
    metadata := fin.metadata, ts := now }

/-- `POST /api/jobs/finish`: first `SELECT status FROM jobs WHERE job_id=?`;
if no row, raise 404 before any write.  Otherwise update the job row
(keyed on `job_id` only — no check of the current status or of
`assigned_node`) and insert exactly one provenance row. -/
def finish_job (db : DB) (fin : FinishIn) (now : Nat) (provId : String) :
    DB × Except Nat String :=
  if db.jobs.any (fun r => r.jobId == fin.jobId) then
    ({ db with
        jobs := db.jobs.map fun r =>
          if r.jobId == fin.jobId then finishRow fin now r else r,
        provenance := db.provenance ++
          [{ id := provId, jobId := fin.jobId, record := mkProvRecord fin now,
             createdAt := now }] },
     Except.ok provId)
  else
    (db, Except.error 404)

/-- Row predicate of `delete_node`'s active-job count:
`assigned_node = ? AND status IN ('assigned', 'running')`. -/
def activeFor (nodeId : String) (j : Job) : Bool :=
  j.assignedNode == some nodeId && (j.status == "assigned" || j.status == "running")

/-- `DELETE /api/frontend/nodes/{node_id}`: count the node's jobs in
`assigned`/`running`; if positive respond 400 ("Cannot delete node with
active job(s)") without touching the store; otherwise `DELETE FROM nodes
WHERE node_id = ?` and respond 404 when that deleted no row. -/
def delete_node (db : DB) (nodeId : String) : DB × Except Nat String :=
  if 0 < db.jobs.countP (fun j => activeFor nodeId j) then
    (db, Except.error 400)
  else
    let db2 := { db with nodes := db.nodes.filter fun nd => !(nd.nodeId == nodeId) }
    if db.nodes.any (fun nd => nd.nodeId == nodeId) then
      (db2, Except.ok "ok")
    else
      (db2, Except.error 404)

/-! ## Provider agent (from `provider-agent/agent.py`) -/

/-- A file in the job's `output/` mount: name and size in bytes. -/
structure FileEntry where
  name : String
  size : Nat
deriving DecidableEq

/-- Python's `str.lower()`, as a character-wise map over the string's
characters. -/
def lowerName (name : String) : String :=
  String.mk (name.data.map Char.toLower)

/-- The canonical artifact names preferred by `run_job_container`
(compared against `p.name.lower()`). -/
def isCanonical (name : String) : Bool :=
  let l := lowerName name
  l == "model.bin" || l == "pytorch_model.bin" || l == "model.pt" || l == "model.pth"

/-- Python's `max(candidates, key=lambda p: p.stat().st_size)` starting
from the first candidate: a later file replaces the incumbent only when
strictly larger, so ties go to the first file encountered. -/
def maxBySizeFrom (f : FileEntry) (rest : List FileEntry) : FileEntry :=
  rest.foldl (fun best p => if p.size > best.size then p else best) f

/-- Artifact discovery in `run_job_container`: with no output files return
`none` ("no model produced"); otherwise take the first file whose
lower-cased name is canonical, and failing that the largest file. -/
def selectArtifact (files : List FileEntry) : Option FileEntry :=
  match files with
  | [] => none
  | f :: rest =>
    match files.find? (fun p => isCanonical p.name) with
    | some preferred => some preferred
    | none => some (maxBySizeFrom f rest)

/-- Response of `GET /api/jobs/fetch-script` as consumed by the agent. -/
structure ScriptPayload where
  script : String
  requirements : String
  entrypoint : String
deriving DecidableEq

/-- The fallback `train.py` generated by `handle_job` when the job has a
`datasetUrl` but no uploaded script and no local `train.py` (the f-string
at agent.py lines 317-324). -/
def fallbackScript (jobId : String) : String := "import time, json, os\n" ++
  "out = \"output/model.bin\"\n" ++
  "os.makedirs(\"output\", exist_ok=True)\n" ++
  "with open(out, \"wb\") as f:\n" ++
  "    f.write(b\"demo-model-\" + b\"" ++ jobId ++ "\".replace(b\"-\", b\"\"))\n" ++
  "print(\"Fallback training: wrote demo model to\", out)\n"

/-- How `handle_job` resolved the training material for a job. -/
inductive Material where
  | remote (script : String)
  | fallback (script : String)
  | localFile
  | noneAvail
deriving DecidableEq

/-- `if script_payload and script_payload.get("script"):` — a fetch
response counts only when present with a non-empty `script` string. -/
def nonEmptyScript (sp : Option ScriptPayload) : Option String :=
  match sp with
  | none => none
  | some s => if s.script = "" then none else some s.script

/-- Material resolution in `handle_job`: prefer a non-empty remote script;
else, when the job has a `datasetUrl` and no local `train.py`, generate
the fallback script; else use a local `train.py` when present; else abort
("No script available for job; aborting."). -/
def resolveMaterial (jobId : String) (datasetUrl : Option String)
    (sp : Option ScriptPayload) (localTrainExists : Bool) : Material :=
  match nonEmptyScript sp with
  | some s => Material.remote s
  | none =>
    match datasetUrl with
    | some _ =>
      if localTrainExists then Material.localFile
      else Material.fallback (fallbackScript jobId)
    | none =>
      if localTrainExists then Material.localFile else Material.noneAvail

/-- Environment and stubbed effects of one `handle_job` invocation:
what the backend returned and what the external world (docker, the
filesystem) did. -/
structure RunInputs where
  nodeId : String
  jobId : String
  datasetName : Option String
  datasetUrl : Option String
  scriptPayload : Option ScriptPayload
  localTrainExists : Bool
  ackSucceeds : Bool
  buildSucceeds : Bool
  outputFiles : List FileEntry
  durationSeconds : Nat
deriving DecidableEq

/-- Render an optional string the way it lands in the finish metadata. -/
def jopt (o : Option String) : JVal :=
  match o with
  | some v => JVal.s v
  | none => JVal.nullv

/-- The metadata sent by the success branch of `handle_job`:
`{"datasetName": datasetName, "datasetUrl": datasetUrl}`. -/
def successMeta (inp : RunInputs) : JMeta :=
  [("datasetName", jopt inp.datasetName), ("datasetUrl", jopt inp.datasetUrl)]

/-- One run of `handle_job` (agent.py lines 282-350), with the docker
build/run outcome and the sha256 digest supplied as stubbed inputs.
Returns the resolved material (`none` when the ack already failed) and
the body of the `finish` call the agent makes, `none` when it returns
without calling finish.  Control flow from the source: a failed ack
returns at once; unavailable material aborts; a failed image build aborts
("Image build failed; aborting job."); an empty output directory reports
finish with empty hash, size 0 and `{"error": "no_model"}`; otherwise the
selected artifact's hash and size are reported (the code re-checks
`if model_hash:`, falling back to the error-style report when the digest
is empty). -/
def handle_job (inp : RunInputs) (hashFn : FileEntry → String) :
    Option Material × Option FinishIn :=
  if !inp.ackSucceeds then (none, none)
  else
    let material := resolveMaterial inp.jobId inp.datasetUrl inp.scriptPayload
      inp.localTrainExists
    if material = Material.noneAvail then (some material, none)
    else if !inp.buildSucceeds then (some material, none)
    else
      match selectArtifact inp.outputFiles with
      | none =>
        (some material, some
          { nodeId := inp.nodeId, jobId := inp.jobId, modelHash := "",
            modelSizeBytes := 0, metadata := [("error", JVal.s "no_model")],
            durationSeconds := inp.durationSeconds })
      | some f =>
        let h := hashFn f
        if h = "" then
          (some material, some
            { nodeId := inp.nodeId, jobId := inp.jobId, modelHash := "",
              modelSizeBytes := f.size, metadata := [("error", JVal.s "no_model")],
              durationSeconds := inp.durationSeconds })
        else
          (some material, some
            { nodeId := inp.nodeId, jobId := inp.jobId, modelHash := h,
              modelSizeBytes := f.size, metadata := successMeta inp,
              durationSeconds := inp.durationSeconds })

/-- A sequence of `ack` attempts `(nodeId, now)` on one job id, applied in
order to the store; returns the final store and how many attempts
succeeded. -/
def ackAttempts (jobId : String) : DB → List (String × Nat) → DB × Nat
  | db, [] => (db, 0)
  | db, a :: as =>
    match ack_job db a.1 jobId a.2 with
    | (db2, Except.ok _) =>
      ((ackAttempts jobId db2 as).1, (ackAttempts jobId db2 as).2 + 1)
    | (db2, Except.error _) => ackAttempts jobId db2 as

/-! ## Helper lemmas -/

/-- `job_id` is the PRIMARY KEY of `jobs`: with distinct ids, two rows
with the same id are the same row. -/
theorem row_eq_of_id_eq {db : DB} (hwf : (db.jobs.map Job.jobId).Nodup)
    {j r : Job} (hj : j ∈ db.jobs) (hr : r ∈ db.jobs)
    (hid : r.jobId = j.jobId) : r = j :=
  List.inj_on_of_nodup_map hwf hr hj hid

/-- When no row satisfies the conditional update's predicate, `ack_job`
changes nothing and responds 400. -/
theorem ack_job_error_of_none (db : DB) (nid jid : String) (t : Nat)
    (h : ∀ r ∈ db.jobs, ackPred jid r = false) :
    ack_job db nid jid t = (db, Except.error 400) := by
  have hz : db.jobs.countP (fun r => ackPred jid r) = 0 := by
    refine List.countP_eq_zero.mpr ?_
    intro a ha
    simp [h a ha]
  simp [ack_job, hz]

/-- After a successful `ack` on job `j`, no row with `j`'s id is pending
any more. -/
theorem no_pending_after_ack (db : DB) (j : Job) (nid : String) (t : Nat) :
    ∀ r ∈ db.jobs.map
      (fun r => if r.jobId == j.jobId then ackRow nid t r else r),
      ackPred j.jobId r = false := by
  intro r hr
  rcases List.mem_map.mp hr with ⟨r0, _, rfl⟩
  by_cases hid : r0.jobId = j.jobId
  · simp [ackPred, ackRow, hid]
  · simp [ackPred, ackRow, hid]

/-- A run of `ack` attempts on a store where no row matches the job id as
pending: every attempt fails and the store never changes. -/
theorem ackAttempts_all_fail (jid : String) (atts : List (String × Nat))
    (db : DB) (h : ∀ r ∈ db.jobs, ackPred jid r = false) :
    ackAttempts jid db atts = (db, 0) := by
  induction atts with
  | nil => rfl
  | cons a as ih =>
    rw [ackAttempts, ack_job_error_of_none db a.1 jid a.2 h]
    exact ih

/-- On a store with unique job ids, acking a pending job `j` succeeds and
rewrites exactly the rows carrying `j`'s id. -/
theorem ack_job_success (db : DB) (j : Job) (nid : String) (t : Nat)
    (hwf : (db.jobs.map Job.jobId).Nodup) (hmem : j ∈ db.jobs)
    (hp : j.status = "pending") :
    ack_job db nid j.jobId t =
      ({ db with jobs := db.jobs.map fun r =>
           if r.jobId == j.jobId then ackRow nid t r else r },
       Except.ok "ok") := by
  have hpos : 0 < db.jobs.countP (fun r => ackPred j.jobId r) := by
    refine List.countP_pos_iff.mpr ⟨j, hmem, ?_⟩
    simp [ackPred, hp]
  have hmap : (db.jobs.map fun r => if ackPred j.jobId r then ackRow nid t r else r)
      = db.jobs.map fun r => if r.jobId == j.jobId then ackRow nid t r else r := by
    refine List.map_congr_left ?_
    intro r hr
    by_cases hid : r.jobId = j.jobId
    · have hrj : r = j := row_eq_of_id_eq hwf hmem hr hid
      subst hrj
      simp [ackPred, hp]
    · simp [ackPred, hid]
  simp only [ack_job, Nat.pos_iff_ne_zero.mp hpos, if_false, hmap]

/-- C1: on a store with unique job ids, `ack` on a pending job succeeds,
atomically setting `status = assigned`, `assignedNode`, `startedAt = now`
on that job's row and only there (all other fields and rows kept); `ack`
on a job whose status is not pending responds 400 with the store
untouched; and of any sequence of `ack` attempts on the job starting from
pending, exactly the first succeeds, so the job is assigned to at most
one node. -/
theorem ack_single_assignment (db : DB) (j : Job) (nid : String) (now : Nat)
    (hwf : (db.jobs.map Job.jobId).Nodup) (hmem : j ∈ db.jobs) :
    (j.status = "pending" →
      ack_job db nid j.jobId now =
        ({ db with jobs := db.jobs.map fun r =>
             if r.jobId == j.jobId then ackRow nid now r else r },
         Except.ok "ok") ∧
      (ackRow nid now j).status = "assigned" ∧
      (ackRow nid now j).assignedNode = some nid ∧
      (ackRow nid now j).startedAt = some now ∧
      (ackRow nid now j).jobId = j.jobId ∧
      (ackRow nid now j).payload = j.payload ∧
      (ackRow nid now j).createdAt = j.createdAt ∧
      (ackRow nid now j).finishedAt = j.finishedAt ∧
      (ackRow nid now j).result = j.result ∧
      (∀ atts : List (String × Nat),
        (ackAttempts j.jobId db ((nid, now) :: atts)).2 = 1)) ∧
    (j.status ≠ "pending" →
      ack_job db nid j.jobId now = (db, Except.error 400)) := by
  constructor
  · intro hp
    have hsucc := ack_job_success db j nid now hwf hmem hp
    refine ⟨hsucc, rfl, rfl, rfl, rfl, rfl, rfl, rfl, rfl, ?_⟩
    intro atts
    have hfail := ackAttempts_all_fail j.jobId atts
      { db with jobs := db.jobs.map fun r =>
          if r.jobId == j.jobId then ackRow nid now r else r }
      (no_pending_after_ack db j nid now)
    rw [ackAttempts, hsucc]
    change (ackAttempts j.jobId _ atts).2 + 1 = 1
    rw [hfail]
  · intro hnp
    refine ack_job_error_of_none db nid j.jobId now ?_
    intro r hr
    by_cases hid : r.jobId = j.jobId
    · have hrj : r = j := row_eq_of_id_eq hwf hmem hr hid
      subst hrj
      simp only [ackPred, Bool.and_eq_false_iff]
      right
      simp [hnp]
    · simp [ackPred, hid]

/-- Concrete rows used by the witnesses below. -/
def wPayload : Payload :=
  { jobId := "j1", datasetName := "mnist", datasetUrl := some "http://d/x",
    datasetHash := none, meta := [], createdAt := 100 }

def wJobPending : Job :=
  { jobId := "j1", status := "pending", payload := wPayload, createdAt := 100,
    assignedNode := none, startedAt := none, finishedAt := none, result := none }

def wDb : DB := { nodes := [], jobs := [wJobPending], provenance := [], logs := [] }

/-- Witness for C1: on a one-job store holding the pending job `j1`, the
first of two `ack` attempts succeeds and the second fails. -/
theorem ack_single_assignment_witness :
    (ack_job wDb "n1" wJobPending.jobId 200).2 = Except.ok "ok" ∧
    (ackAttempts wJobPending.jobId wDb [("n1", 200), ("n2", 300)]).2 = 1 := by
  have h := (ack_single_assignment wDb wJobPending "n1" 200 (by decide)
    (by decide)).1 (by decide)
  refine ⟨?_, h.2.2.2.2.2.2.2.2.2 [("n2", 300)]⟩
  rw [h.1]

/-- Unfolding `oldestFrom` one scanned row at a time. -/
theorem oldestFrom_cons (f x : Job) (xs : List Job) :
    oldestFrom f (x :: xs)
      = oldestFrom (if x.createdAt < f.createdAt then x else f) xs := rfl

/-- The `ORDER BY created_at LIMIT 1` scan keeps the first row attaining
the minimal `created_at`: the selected row splits the scanned list with
every earlier row strictly younger-created, and bounds all rows below. -/
theorem oldestFrom_spec (rest : List Job) : ∀ f : Job,
    ∃ l1 l2, f :: rest = l1 ++ oldestFrom f rest :: l2 ∧
      (∀ x ∈ l1, (oldestFrom f rest).createdAt < x.createdAt) ∧
      (∀ x ∈ f :: rest, (oldestFrom f rest).createdAt ≤ x.createdAt) := by
  induction rest with
  | nil =>
    intro f
    exact ⟨[], [], rfl, by simp, by simp [oldestFrom]⟩
  | cons x xs ih =>
    intro f
    rw [oldestFrom_cons]
    by_cases hx : x.createdAt < f.createdAt
    · rw [if_pos hx]
      obtain ⟨l1, l2, heq, hstrict, hle⟩ := ih x
      refine ⟨f :: l1, l2, ?_, ?_, ?_⟩
      · rw [List.cons_append, ← heq]
      · intro y hy
        rcases List.mem_cons.mp hy with rfl | hy'
        · exact lt_of_le_of_lt (hle x (List.mem_cons_self x xs)) hx
        · exact hstrict y hy'
      · intro y hy
        rcases List.mem_cons.mp hy with rfl | hy'
        · exact le_of_lt (lt_of_le_of_lt (hle x (List.mem_cons_self x xs)) hx)
        · exact hle y hy'
    · rw [if_neg hx]
      have hfx : f.createdAt ≤ x.createdAt := Nat.le_of_not_lt hx
      obtain ⟨l1, l2, heq, hstrict, hle⟩ := ih f
      cases l1 with
      | nil =>
        rw [List.nil_append] at heq
        injection heq with hgf hxs
        refine ⟨[], x :: xs, ?_, by simp, ?_⟩
        · rw [List.nil_append, ← hgf]
        · intro y hy
          rcases List.mem_cons.mp hy with rfl | hy'
          · rw [← hgf]
          · rcases List.mem_cons.mp hy' with rfl | hy''
            · rw [← hgf]; exact hfx
            · exact hle y (List.mem_cons_of_mem f hy'')
      | cons c t =>
        rw [List.cons_append] at heq
        injection heq with hfc hxs
        have hcf : (oldestFrom f xs).createdAt < f.createdAt := by
          have h := hstrict c (List.mem_cons_self c t)
          rwa [← hfc] at h
        refine ⟨f :: x :: t, l2, ?_, ?_, ?_⟩
        · calc f :: x :: xs
              = f :: x :: (t ++ oldestFrom f xs :: l2) := by rw [← hxs]
            _ = (f :: x :: t) ++ oldestFrom f xs :: l2 := by simp
        · intro y hy
          rcases List.mem_cons.mp hy with rfl | hy'
          · exact hcf
          · rcases List.mem_cons.mp hy' with rfl | hy''
            · exact lt_of_lt_of_le hcf hfx
            · exact hstrict y (List.mem_cons_of_mem c hy'')
        · intro y hy
          rcases List.mem_cons.mp hy with rfl | hy'
          · exact le_of_lt hcf
          · rcases List.mem_cons.mp hy' with rfl | hy''
            · exact le_of_lt (lt_of_lt_of_le hcf hfx)
            · exact hle y (List.mem_cons_of_mem f hy'')

/-- C2 (amended): `poll_for_job` mutates no state and returns, among the
pending jobs, the first-inserted one with minimal `createdAt` (ties go to
table insertion order — the query has no secondary sort key on the job
id), or nothing when no pending job exists. -/
theorem poll_oldest_pending (db : DB) :
    (poll_for_job db).1 = db ∧
    ((poll_for_job db).2 = none ↔ ∀ r ∈ db.jobs, ¬ r.status = "pending") ∧
    (∀ v, (poll_for_job db).2 = some v →
      ∃ r l1 l2,
        db.jobs.filter (fun q => q.status == "pending") = l1 ++ r :: l2 ∧
        v = pollView r ∧ r ∈ db.jobs ∧ r.status = "pending" ∧
        (∀ x ∈ l1, r.createdAt < x.createdAt) ∧
        (∀ x ∈ db.jobs, x.status = "pending" → r.createdAt ≤ x.createdAt)) := by
  rcases hfil : db.jobs.filter (fun r => r.status == "pending") with _ | ⟨f, rest⟩
  · have hnone : ∀ r ∈ db.jobs, ¬ r.status = "pending" := by
      have h := List.filter_eq_nil_iff.mp hfil
      intro r hr hs
      exact h r hr (by simp [hs])
    unfold poll_for_job
    rw [hfil]
    exact ⟨rfl, ⟨fun _ => hnone, fun _ => rfl⟩, fun v hv => by cases hv⟩
  · have hmemf : f ∈ db.jobs.filter (fun r => r.status == "pending") := by
      rw [hfil]; exact List.mem_cons_self f rest
    unfold poll_for_job
    rw [hfil]
    refine ⟨rfl, ?_, ?_⟩
    · constructor
      · intro h; cases h
      · intro hall
        exact absurd (by exact eq_of_beq (List.mem_filter.mp hmemf).2)
          (hall f (List.mem_filter.mp hmemf).1)
    · intro v hv
      obtain ⟨l1, l2, heq, hstrict, hle⟩ := oldestFrom_spec rest f
      have hveq : v = pollView (oldestFrom f rest) := by
        injection hv with h; exact h.symm
      have hg : oldestFrom f rest ∈ db.jobs.filter (fun r => r.status == "pending") := by
        rw [hfil, heq]
        exact List.mem_append.mpr (Or.inr (List.mem_cons_self _ l2))
      refine ⟨oldestFrom f rest, l1, l2, heq, hveq,
        (List.mem_filter.mp hg).1, eq_of_beq (List.mem_filter.mp hg).2, hstrict, ?_⟩
      intro x hx hpx
      have hxf : x ∈ db.jobs.filter (fun r => r.status == "pending") :=
        List.mem_filter.mpr ⟨hx, by simp [hpx]⟩
      rw [hfil] at hxf
      exact hle x hxf

/-- Two pending jobs with the same `createdAt`; the job with the larger
id `"b"` sits earlier in the table (smaller rowid). -/
def cexPayloadB : Payload :=
  { jobId := "b", datasetName := "d", datasetUrl := none, datasetHash := none,
    meta := [], createdAt := 5 }

def cexJobB : Job :=
  { jobId := "b", status := "pending", payload := cexPayloadB, createdAt := 5,
    assignedNode := none, startedAt := none, finishedAt := none, result := none }

def cexPayloadA : Payload :=
  { jobId := "a", datasetName := "d", datasetUrl := none, datasetHash := none,
    meta := [], createdAt := 5 }

def cexJobA : Job :=
  { jobId := "a", status := "pending", payload := cexPayloadA, createdAt := 5,
    assignedNode := none, startedAt := none, finishedAt := none, result := none }

def pollTieDb : DB :=
  { nodes := [], jobs := [cexJobB, cexJobA], provenance := [], logs := [] }

/-- Counterexample to C2 as stated: with two pending jobs tied on
`createdAt = 5`, polling returns job `"b"` (the first-inserted row), not
the job `"a"` that is first in job-id order, so ties are NOT broken by id
order. -/
theorem poll_tie_ignores_id_order_cex :
    ((poll_for_job pollTieDb).2.map PollJob.jobId) = some "b" ∧
    cexJobA ∈ pollTieDb.jobs ∧ cexJobA.status = "pending" ∧
    cexJobA.createdAt = cexJobB.createdAt ∧
    cexJobA.jobId = "a" ∧ cexJobB.jobId = "b" ∧
    "a".data < "b".data := by
  decide

/-- Witness for the amended C2 at the tie store: no mutation, and the
selected row is pending with minimal `createdAt`. -/
theorem poll_oldest_pending_witness :
    (poll_for_job pollTieDb).1 = pollTieDb ∧
    ∃ r l1 l2,
      pollTieDb.jobs.filter (fun q => q.status == "pending") = l1 ++ r :: l2 ∧
      pollView cexJobB = pollView r ∧ r ∈ pollTieDb.jobs ∧ r.status = "pending" ∧
      (∀ x ∈ l1, r.createdAt < x.createdAt) ∧
      (∀ x ∈ pollTieDb.jobs, x.status = "pending" → r.createdAt ≤ x.createdAt) :=
  ⟨(poll_oldest_pending pollTieDb).1,
   (poll_oldest_pending pollTieDb).2.2 (pollView cexJobB) (by decide)⟩

/-- An empty store, used by several concrete instantiations below. -/
def emptyDb : DB := { nodes := [], jobs := [], provenance := [], logs := [] }

/-- C3: `finish` on a job id absent from the store responds 404 and
performs no writes at all — no job row is modified and no provenance row
is inserted (the store comes back unchanged). -/
theorem finish_unknown_job (db : DB) (fin : FinishIn) (now : Nat) (pid : String)
    (h : ∀ r ∈ db.jobs, r.jobId ≠ fin.jobId) :
    finish_job db fin now pid = (db, Except.error 404) := by
  have hany : db.jobs.any (fun r => r.jobId == fin.jobId) = false := by
    rw [List.any_eq_false]
    intro r hr
    simp [h r hr]
  simp [finish_job, hany]

/-- A concrete finish request used by the C3 witness. -/
def wFinGhost : FinishIn :=
  { nodeId := "n1", jobId := "ghost", modelHash := "", modelSizeBytes := 0,
    metadata := [], durationSeconds := 0 }

/-- Witness for C3 on the empty store. -/
theorem finish_unknown_job_witness :
    finish_job emptyDb wFinGhost 10 "p1" = (emptyDb, Except.error 404) :=
  finish_unknown_job emptyDb wFinGhost 10 "p1" (by decide)

/-- C4: for any existing job — whatever its current status and whether or
not the reporting node matches `assignedNode` — `finish` succeeds,
rewrites exactly the rows carrying the job id to
`status = finished`, `finishedAt = now`, `result = {modelHash, meta}`
(leaving every other field and row alone), appends exactly one provenance
row whose record carries the request's jobId, nodeId, modelHash,
modelSizeBytes, durationSeconds and metadata, and a repeated finish on
the same id succeeds again and overwrites the result (last-writer-wins). -/
theorem finish_overwrite (db : DB) (j : Job) (fin : FinishIn) (now : Nat)
    (pid : String) (hmem : j ∈ db.jobs) (hid : j.jobId = fin.jobId) :
    finish_job db fin now pid =
      ({ db with
          jobs := db.jobs.map fun r =>
            if r.jobId == fin.jobId then finishRow fin now r else r,
          provenance := db.provenance ++
            [{ id := pid, jobId := fin.jobId, record := mkProvRecord fin now,
               createdAt := now }] },
       Except.ok pid) ∧
    (finishRow fin now j).status = "finished" ∧
    (finishRow fin now j).finishedAt = some now ∧
    (finishRow fin now j).result
      = some { modelHash := fin.modelHash, meta := fin.metadata } ∧
    (finishRow fin now j).jobId = j.jobId ∧
    (finishRow fin now j).payload = j.payload ∧
    (finishRow fin now j).createdAt = j.createdAt ∧
    (finishRow fin now j).assignedNode = j.assignedNode ∧
    (finishRow fin now j).startedAt = j.startedAt ∧
    (mkProvRecord fin now).jobId = fin.jobId ∧
    (mkProvRecord fin now).nodeId = fin.nodeId ∧
    (mkProvRecord fin now).modelHash = fin.modelHash ∧
    (mkProvRecord fin now).modelSizeBytes = fin.modelSizeBytes ∧
    (mkProvRecord fin now).durationSeconds = fin.durationSeconds ∧
    (mkProvRecord fin now).metadata = fin.metadata ∧
    (finish_job db fin now pid).1.provenance.length
      = db.provenance.length + 1 ∧
    (∀ fin2 now2 pid2, fin2.jobId = fin.jobId →
      (finish_job (finish_job db fin now pid).1 fin2 now2 pid2).2
        = Except.ok pid2 ∧
      (finishRow fin2 now2 (finishRow fin now j)).result
        = some { modelHash := fin2.modelHash, meta := fin2.metadata }) := by
  have hany : db.jobs.any (fun r => r.jobId == fin.jobId) = true :=
    List.any_eq_true.mpr ⟨j, hmem, by simp [hid]⟩
  have hmain : finish_job db fin now pid =
      ({ db with
          jobs := db.jobs.map fun r =>
            if r.jobId == fin.jobId then finishRow fin now r else r,
          provenance := db.provenance ++
            [{ id := pid, jobId := fin.jobId, record := mkProvRecord fin now,
               createdAt := now }] },
       Except.ok pid) := by
    rw [finish_job, if_pos hany]
  refine ⟨hmain, rfl, rfl, rfl, rfl, rfl, rfl, rfl, rfl, rfl, rfl, rfl, rfl,
    rfl, rfl, ?_, ?_⟩
  · rw [hmain]
    simp
  · intro fin2 now2 pid2 h2
    have hmem2 : finishRow fin now j ∈ (finish_job db fin now pid).1.jobs := by
      rw [hmain]
      exact List.mem_map.mpr ⟨j, hmem, by simp [hid]⟩
    have hany2 : (finish_job db fin now pid).1.jobs.any
        (fun r => r.jobId == fin2.jobId) = true :=
      List.any_eq_true.mpr ⟨finishRow fin now j, hmem2, by simp [finishRow, hid, h2]⟩
    exact ⟨by rw [finish_job, if_pos hany2], rfl⟩

/-- A finished job row and a finish request for it, for the C4 witness:
the job is already `finished` and assigned to `n1`, while the request
reports from a different node `n2`. -/
def wJobDone : Job :=
  { jobId := "j2", status := "finished", payload := wPayload, createdAt := 50,
    assignedNode := some "n1", startedAt := some 60, finishedAt := some 70,
    result := some { modelHash := "old", meta := [] } }

def wDbDone : DB := { nodes := [], jobs := [wJobDone], provenance := [], logs := [] }

def wFin2 : FinishIn :=
  { nodeId := "n2", jobId := "j2", modelHash := "newhash", modelSizeBytes := 9,
    metadata := [("k", JVal.s "v")], durationSeconds := 3 }

/-- Witness for C4: finishing an already-finished job from a different
node succeeds and appends one provenance row. -/
theorem finish_overwrite_witness :
    (finish_job wDbDone wFin2 80 "p9").2 = Except.ok "p9" ∧
    (finish_job wDbDone wFin2 80 "p9").1.provenance.length
      = wDbDone.provenance.length + 1 ∧
    (finishRow wFin2 80 wJobDone).result
      = some { modelHash := "newhash", meta := [("k", JVal.s "v")] } := by
  have h := finish_overwrite wDbDone wJobDone wFin2 80 "p9" (by decide) (by decide)
  refine ⟨by rw [h.1], h.2.2.2.2.2.2.2.2.2.2.2.2.2.2.2.1, ?_⟩
  exact h.2.2.2.1

/-- Concrete run for the C5 counterexample: job acknowledged, script
available, but the docker build fails. -/
def c5Inp : RunInputs :=
  { nodeId := "node-1", jobId := "job-1", datasetName := some "mnist",
    datasetUrl := some "http://data/x",
    scriptPayload := some { script := "print(1)", requirements := "",
                            entrypoint := "train.py" },
    localTrainExists := false, ackSucceeds := true, buildSucceeds := false,
    outputFiles := [], durationSeconds := 0 }

/-- Counterexample to C5 as stated: when the image build fails for an
acknowledged job, the agent makes NO finish call at all (it prints
"Image build failed; aborting job." and returns), rather than reporting
an empty-hash finish. -/
theorem build_failure_no_finish_cex :
    (handle_job c5Inp (fun _ => "h")).2 = none ∧
    c5Inp.ackSucceeds = true ∧ c5Inp.buildSucceeds = false := by
  exact ⟨rfl, rfl, rfl⟩

/-- C5 (amended): when the image build fails, the agent aborts the job
attempt without calling `finish`, so the backend job record is not moved
to `finished` by this attempt (it stays `assigned`). -/
theorem build_failure_aborts (inp : RunInputs) (hashFn : FileEntry → String)
    (h : inp.buildSucceeds = false) :
    (handle_job inp hashFn).2 = none := by
  by_cases ha : inp.ackSucceeds
  · by_cases hm : resolveMaterial inp.jobId inp.datasetUrl inp.scriptPayload
        inp.localTrainExists = Material.noneAvail
    · simp [handle_job, ha, hm]
    · simp [handle_job, ha, hm, h]
  · simp [handle_job, Bool.eq_false_iff.mpr ha]

/-- Witness for the amended C5 at the concrete run. -/
theorem build_failure_aborts_witness :
    (handle_job c5Inp (fun _ => "hash")).2 = none :=
  build_failure_aborts c5Inp (fun _ => "hash") (by decide)

/-- Concrete run for the C6 counterexample: acknowledged job, no uploaded
script, no local `train.py`, and no `datasetUrl` either. -/
def c6Inp : RunInputs :=
  { nodeId := "node-1", jobId := "job-2", datasetName := some "mnist",
    datasetUrl := none, scriptPayload := none, localTrainExists := false,
    ackSucceeds := true, buildSucceeds := true,
    outputFiles := [{ name := "model.bin", size := 5 }], durationSeconds := 1 }

/-- Counterexample to C6 as stated: with no backend script and no local
`train.py`, but also no `datasetUrl`, the agent synthesizes nothing and
aborts without executing the job — the material resolves to `noneAvail`,
not to a fallback script. -/
theorem no_fallback_without_url_cex :
    resolveMaterial "job-2" none none false = Material.noneAvail ∧
    (handle_job c6Inp (fun _ => "h")).1 = some Material.noneAvail ∧
    (handle_job c6Inp (fun _ => "h")).2 = none ∧
    Material.noneAvail ≠ Material.fallback (fallbackScript "job-2") :=
  ⟨rfl, rfl, rfl, fun h => nomatch h⟩

/-- C6 (amended): for an acknowledged job with no (non-empty) uploaded
script and no local `train.py`, the deterministic fallback
`fallbackScript jobId` is synthesized exactly when the job carries a
`datasetUrl`; and when it carries none the agent aborts without any
finish call. -/
theorem fallback_script_policy (inp : RunInputs) (hashFn : FileEntry → String)
    (hack : inp.ackSucceeds = true)
    (hsp : nonEmptyScript inp.scriptPayload = none)
    (hlocal : inp.localTrainExists = false) :
    (∀ u, inp.datasetUrl = some u →
      resolveMaterial inp.jobId inp.datasetUrl inp.scriptPayload
          inp.localTrainExists
        = Material.fallback (fallbackScript inp.jobId) ∧
      (handle_job inp hashFn).1
        = some (Material.fallback (fallbackScript inp.jobId)) ∧
      (inp.buildSucceeds = true → (handle_job inp hashFn).2.isSome = true)) ∧
    (inp.datasetUrl = none →
      resolveMaterial inp.jobId inp.datasetUrl inp.scriptPayload
          inp.localTrainExists
        = Material.noneAvail ∧
      (handle_job inp hashFn).2 = none) := by
  constructor
  · intro u hu
    have hres : resolveMaterial inp.jobId inp.datasetUrl inp.scriptPayload
        inp.localTrainExists = Material.fallback (fallbackScript inp.jobId) := by
      simp [resolveMaterial, hsp, hu, hlocal]
    refine ⟨hres, ?_, ?_⟩
    · by_cases hb : inp.buildSucceeds
      · rcases hart : selectArtifact inp.outputFiles with _ | f
        · simp [handle_job, hack, hres, hb, hart]
        · by_cases hh : hashFn f = "" <;>
            simp [handle_job, hack, hres, hb, hart, hh]
      · simp [handle_job, hack, hres, Bool.eq_false_iff.mpr hb]
    · intro hb
      rcases hart : selectArtifact inp.outputFiles with _ | f
      · simp [handle_job, hack, hres, hb, hart]
      · by_cases hh : hashFn f = ""
        · simp [handle_job, hack, hres, hb, hart, hh]
        · simp [handle_job, hack, hres, hb, hart, hh]
  · intro hu
    have hres : resolveMaterial inp.jobId inp.datasetUrl inp.scriptPayload
        inp.localTrainExists = Material.noneAvail := by
      simp [resolveMaterial, hsp, hu, hlocal]
    exact ⟨hres, by simp [handle_job, hack, hres]⟩

/-- Concrete run for the C6 witness: same situation but with a
`datasetUrl` supplied, where the fallback is generated. -/
def c6UrlInp : RunInputs :=
  { nodeId := "node-1", jobId := "job-3", datasetName := some "mnist",
    datasetUrl := some "http://data/m", scriptPayload := none,
    localTrainExists := false, ackSucceeds := true, buildSucceeds := true,
    outputFiles := [{ name := "model.bin", size := 5 }], durationSeconds := 1 }

/-- Witness for the amended C6: with a `datasetUrl` the fallback script is
synthesized and the run still reports a finish. -/
theorem fallback_script_policy_witness :
    resolveMaterial c6UrlInp.jobId c6UrlInp.datasetUrl c6UrlInp.scriptPayload
        c6UrlInp.localTrainExists
      = Material.fallback (fallbackScript c6UrlInp.jobId) ∧
    (handle_job c6UrlInp (fun _ => "h")).2.isSome = true := by
  have h := (fallback_script_policy c6UrlInp (fun _ => "h") (by decide)
    (by decide) (by decide)).1 "http://data/m" (by decide)
  exact ⟨h.1, h.2.2 (by decide)⟩

/-- Unfolding `maxBySizeFrom` one candidate at a time. -/
theorem maxBySizeFrom_cons (f x : FileEntry) (xs : List FileEntry) :
    maxBySizeFrom f (x :: xs)
      = maxBySizeFrom (if x.size > f.size then x else f) xs := rfl

/-- Python's `max` keeps the first maximal candidate: the selected file
splits the candidate list with every earlier file strictly smaller, and
bounds every candidate from above. -/
theorem maxBySizeFrom_spec (rest : List FileEntry) : ∀ f : FileEntry,
    ∃ l1 l2, f :: rest = l1 ++ maxBySizeFrom f rest :: l2 ∧
      (∀ x ∈ l1, x.size < (maxBySizeFrom f rest).size) ∧
      (∀ x ∈ f :: rest, x.size ≤ (maxBySizeFrom f rest).size) := by
  induction rest with
  | nil =>
    intro f
    exact ⟨[], [], rfl, by simp, by simp [maxBySizeFrom]⟩
  | cons x xs ih =>
    intro f
    rw [maxBySizeFrom_cons]
    by_cases hx : x.size > f.size
    · rw [if_pos hx]
      obtain ⟨l1, l2, heq, hstrict, hle⟩ := ih x
      refine ⟨f :: l1, l2, ?_, ?_, ?_⟩
      · rw [List.cons_append, ← heq]
      · intro y hy
        rcases List.mem_cons.mp hy with rfl | hy'
        · exact lt_of_lt_of_le hx (hle x (List.mem_cons_self x xs))
        · exact hstrict y hy'
      · intro y hy
        rcases List.mem_cons.mp hy with rfl | hy'
        · exact le_of_lt (lt_of_lt_of_le hx (hle x (List.mem_cons_self x xs)))
        · exact hle y hy'
    · rw [if_neg hx]
      have hfx : x.size ≤ f.size := Nat.le_of_not_lt hx
      obtain ⟨l1, l2, heq, hstrict, hle⟩ := ih f
      cases l1 with
      | nil =>
        rw [List.nil_append] at heq
        injection heq with hgf hxs
        refine ⟨[], x :: xs, ?_, by simp, ?_⟩
        · rw [List.nil_append, ← hgf]
        · intro y hy
          rcases List.mem_cons.mp hy with rfl | hy'
          · rw [← hgf]
          · rcases List.mem_cons.mp hy' with rfl | hy''
            · rw [← hgf]; exact hfx
            · exact hle y (List.mem_cons_of_mem f hy'')
      | cons c t =>
        rw [List.cons_append] at heq
        injection heq with hfc hxs
        have hcf : f.size < (maxBySizeFrom f xs).size := by
          have h := hstrict c (List.mem_cons_self c t)
          rwa [← hfc] at h
        refine ⟨f :: x :: t, l2, ?_, ?_, ?_⟩
        · calc f :: x :: xs
              = f :: x :: (t ++ maxBySizeFrom f xs :: l2) := by rw [← hxs]
            _ = (f :: x :: t) ++ maxBySizeFrom f xs :: l2 := by simp
        · intro y hy
          rcases List.mem_cons.mp hy with rfl | hy'
          · exact hcf
          · rcases List.mem_cons.mp hy' with rfl | hy''
            · exact lt_of_le_of_lt hfx hcf
            · exact hstrict y (List.mem_cons_of_mem c hy'')
        · intro y hy
          rcases List.mem_cons.mp hy with rfl | hy'
          · exact le_of_lt hcf
          · rcases List.mem_cons.mp hy' with rfl | hy''
            · exact le_of_lt (lt_of_le_of_lt hfx hcf)
            · exact hle y (List.mem_cons_of_mem f hy'')

/-- C7: after a run with a non-empty output directory, a canonically named
file (`model.bin`, `pytorch_model.bin`, `model.pt`, `model.pth`, case
insensitive) is selected whenever one exists; otherwise the selected file
is the largest by byte size, ties broken by the first file encountered.
In particular, for `a.txt` of 10 bytes and `model.bin` of 5 bytes, the
selected artifact is `model.bin`. -/
theorem artifact_selection (files : List FileEntry) (hne : files ≠ []) :
    ((∃ f ∈ files, isCanonical f.name = true) →
      ∃ g, selectArtifact files = some g ∧ g ∈ files ∧
        isCanonical g.name = true) ∧
    ((∀ f ∈ files, isCanonical f.name = false) →
      ∃ g l1 l2, selectArtifact files = some g ∧ files = l1 ++ g :: l2 ∧
        (∀ x ∈ l1, x.size < g.size) ∧ (∀ x ∈ files, x.size ≤ g.size)) ∧
    selectArtifact [{ name := "a.txt", size := 10 },
                    { name := "model.bin", size := 5 }]
      = some { name := "model.bin", size := 5 } := by
  refine ⟨?_, ?_, by decide⟩
  · intro hex
    rcases files with _ | ⟨f, rest⟩
    · exact absurd rfl hne
    · have hfind : (f :: rest).find? (fun p => isCanonical p.name) ≠ none := by
        rw [Ne, List.find?_eq_none]
        push_neg
        obtain ⟨g, hg, hcg⟩ := hex
        exact ⟨g, hg, by simp [hcg]⟩
      rcases hf : (f :: rest).find? (fun p => isCanonical p.name) with _ | g
      · exact absurd hf hfind
      · refine ⟨g, ?_, List.mem_of_find?_eq_some hf, ?_⟩
        · simp [selectArtifact, hf]
        · have h2 := List.find?_some hf
          simpa using h2
  · intro hnone
    rcases files with _ | ⟨f, rest⟩
    · exact absurd rfl hne
    · have hfind : (f :: rest).find? (fun p => isCanonical p.name) = none := by
        rw [List.find?_eq_none]
        intro p hp
        simp [hnone p hp]
      obtain ⟨l1, l2, heq, hstrict, hle⟩ := maxBySizeFrom_spec rest f
      exact ⟨maxBySizeFrom f rest, l1, l2, by simp [selectArtifact, hfind],
        heq, hstrict, hle⟩

/-- Witness for C7: the name-priority case on the concrete two-file
directory. -/
theorem artifact_selection_witness :
    selectArtifact [{ name := "a.txt", size := 10 },
                    { name := "model.bin", size := 5 }]
      = some { name := "model.bin", size := 5 } :=
  (artifact_selection [{ name := "a.txt", size := 10 },
                       { name := "model.bin", size := 5 }] (by decide)).2.2

/-- Counterexample to C8 as stated: heartbeating a node id absent from the
store does NOT return NotFound — the handler never inspects the affected
row count and answers ok, leaving the store unchanged (and creating no
node). -/
theorem heartbeat_no_notfound_cex :
    heartbeat emptyDb "ghost-node" 7 = (emptyDb, Except.ok "ok") ∧
    emptyDb.nodes = [] :=
  ⟨rfl, rfl⟩

/-- C8 (amended): `heartbeat` always answers ok (it reports no NotFound);
it rewrites `lastSeen` on exactly the rows carrying the node id, changes
no other field and no other table, never creates a node (the node list
keeps its length and its ids), and is the identity when the node does not
exist. -/
theorem heartbeat_behaviour (db : DB) (nid : String) (now : Nat) :
    (heartbeat db nid now).2 = Except.ok "ok" ∧
    (heartbeat db nid now).1.nodes
      = db.nodes.map
          (fun nd => if nd.nodeId == nid then { nd with lastSeen := now } else nd) ∧
    (heartbeat db nid now).1.nodes.length = db.nodes.length ∧
    (heartbeat db nid now).1.nodes.map Node.nodeId = db.nodes.map Node.nodeId ∧
    (heartbeat db nid now).1.jobs = db.jobs ∧
    (heartbeat db nid now).1.provenance = db.provenance ∧
    (heartbeat db nid now).1.logs = db.logs ∧
    (∀ nd ∈ db.nodes, nd.nodeId ≠ nid → nd ∈ (heartbeat db nid now).1.nodes) ∧
    (∀ nd : Node, ({ nd with lastSeen := now } : Node).nodeId = nd.nodeId ∧
      ({ nd with lastSeen := now } : Node).info = nd.info) ∧
    ((∀ nd ∈ db.nodes, nd.nodeId ≠ nid) → (heartbeat db nid now).1 = db) := by
  refine ⟨rfl, rfl, by simp [heartbeat], ?_, rfl, rfl, rfl, ?_, fun nd => ⟨rfl, rfl⟩, ?_⟩
  · show (db.nodes.map _).map Node.nodeId = db.nodes.map Node.nodeId
    rw [List.map_map]
    refine List.map_congr_left ?_
    intro nd _
    by_cases h : nd.nodeId = nid
    · simp [h]
    · simp [h]
  · intro nd hnd hne
    refine List.mem_map.mpr ⟨nd, hnd, ?_⟩
    simp [hne]
  · intro hall
    show ({ db with nodes := _ } : DB) = db
    have : db.nodes.map
        (fun nd => if nd.nodeId == nid then { nd with lastSeen := now } else nd)
        = db.nodes := by
      calc db.nodes.map
            (fun nd => if nd.nodeId == nid then { nd with lastSeen := now } else nd)
          = db.nodes.map id :=
            List.map_congr_left (fun nd hnd => by simp [hall nd hnd])
        _ = db.nodes := List.map_id db.nodes
    rw [this]

/-- Witness for the amended C8 on a store with one registered node. -/
def wNode : Node := { nodeId := "n1", info := [], lastSeen := 3 }

def wNodeDb : DB := { nodes := [wNode], jobs := [], provenance := [], logs := [] }

theorem heartbeat_behaviour_witness :
    (heartbeat wNodeDb "n1" 9).2 = Except.ok "ok" ∧
    (heartbeat wNodeDb "n1" 9).1.nodes.map Node.nodeId
      = wNodeDb.nodes.map Node.nodeId :=
  ⟨(heartbeat_behaviour wNodeDb "n1" 9).1,
   (heartbeat_behaviour wNodeDb "n1" 9).2.2.2.1⟩

/-- C9: deleting a node with any job in `assigned` or `running` status
assigned to it responds 400 (Conflict) leaving the store unchanged; with
no such active job, an existing node's row (and only that row) is
removed with an ok response; and when additionally no node with the id
exists, the handler responds 404 with the store unchanged. -/
theorem delete_node_rules (db : DB) (nid : String) :
    (0 < db.jobs.countP (fun j => activeFor nid j) →
      delete_node db nid = (db, Except.error 400)) ∧
    (db.jobs.countP (fun j => activeFor nid j) = 0 →
      ((∃ nd ∈ db.nodes, nd.nodeId = nid) →
        (delete_node db nid).2 = Except.ok "ok" ∧
        (delete_node db nid).1.nodes
          = db.nodes.filter (fun nd => !(nd.nodeId == nid)) ∧
        (∀ nd ∈ (delete_node db nid).1.nodes, nd.nodeId ≠ nid) ∧
        (∀ nd ∈ db.nodes, nd.nodeId ≠ nid → nd ∈ (delete_node db nid).1.nodes) ∧
        (delete_node db nid).1.jobs = db.jobs ∧
        (delete_node db nid).1.provenance = db.provenance) ∧
      ((∀ nd ∈ db.nodes, nd.nodeId ≠ nid) →
        delete_node db nid = (db, Except.error 404))) := by
  constructor
  · intro hpos
    rw [delete_node, if_pos hpos]
  · intro hzero
    have hnotpos : ¬ 0 < db.jobs.countP (fun j => activeFor nid j) := by
      rw [hzero]; exact lt_irrefl 0
    constructor
    · intro hex
      have hany : db.nodes.any (fun nd => nd.nodeId == nid) = true := by
        obtain ⟨nd, hnd, hid⟩ := hex
        exact List.any_eq_true.mpr ⟨nd, hnd, by simp [hid]⟩
      have hmain : delete_node db nid =
          ({ db with nodes := db.nodes.filter fun nd => !(nd.nodeId == nid) },
           Except.ok "ok") := by
        rw [delete_node, if_neg hnotpos, if_pos hany]
      refine ⟨by rw [hmain], by rw [hmain], ?_, ?_, by rw [hmain], by rw [hmain]⟩
      · intro nd hnd
        rw [hmain] at hnd
        have := (List.mem_filter.mp hnd).2
        simpa using this
      · intro nd hnd hne
        rw [hmain]
        exact List.mem_filter.mpr ⟨hnd, by simp [hne]⟩
    · intro hall
      have hany : db.nodes.any (fun nd => nd.nodeId == nid) = false := by
        rw [List.any_eq_false]
        intro nd hnd
        simp [hall nd hnd]
      have hfil : db.nodes.filter (fun nd => !(nd.nodeId == nid)) = db.nodes := by
        rw [List.filter_eq_self]
        intro nd hnd
        simp [hall nd hnd]
      rw [delete_node, if_neg hnotpos, hany, hfil]
      rfl

/-- A job actively assigned to node `n1`, for the C9 witness. -/
def wJobActive : Job :=
  { jobId := "j9", status := "assigned", payload := wPayload, createdAt := 10,
    assignedNode := some "n1", startedAt := some 11, finishedAt := none,
    result := none }

def wBusyDb : DB :=
  { nodes := [wNode], jobs := [wJobActive], provenance := [], logs := [] }

/-- Witness for C9: deleting `n1` while it holds an assigned job is a
Conflict; deleting it from a store where it has no active job removes it. -/
theorem delete_node_rules_witness :
    delete_node wBusyDb "n1" = (wBusyDb, Except.error 400) ∧
    (delete_node wNodeDb "n1").2 = Except.ok "ok" ∧
    (delete_node wNodeDb "n1").1.nodes
      = wNodeDb.nodes.filter (fun nd => !(nd.nodeId == "n1")) ∧
    delete_node emptyDb "n1" = (emptyDb, Except.error 404) := by
  refine ⟨(delete_node_rules wBusyDb "n1").1 (by decide), ?_, ?_,
    ((delete_node_rules emptyDb "n1").2 (by decide)).2 (by decide)⟩
  · exact (((delete_node_rules wNodeDb "n1").2 (by decide)).1
      ⟨wNode, by decide, by decide⟩).1
  · exact (((delete_node_rules wNodeDb "n1").2 (by decide)).1
      ⟨wNode, by decide, by decide⟩).2.1

/-- C10: a `create` call supplying a job id already present in the store
hits the `jobs` primary key, fails with an error response instead of
upserting, and leaves the store — in particular the existing job's
status, payload, timestamps and result — untouched. -/
theorem create_duplicate_id (db : DB) (j : Job) (inp : JobCreateIn)
    (freshId : String) (now : Nat) (hmem : j ∈ db.jobs)
    (hid : inp.jobId = some j.jobId) (hne : j.jobId ≠ "") :
    create_job db inp freshId now = (db, Except.error 500) := by
  have hany : db.jobs.any (fun r => r.jobId == j.jobId) = true :=
    List.any_eq_true.mpr ⟨j, hmem, by simp⟩
  rw [create_job, hid]
  simp only [if_neg hne, hany, if_true]

/-- A create request reusing the id of `wJobPending`, for the C10 witness. -/
def wDupIn : JobCreateIn :=
  { jobId := some "j1", datasetName := "other", datasetUrl := none,
    datasetHash := none, meta := [] }

/-- Witness for C10 on the one-job store: the duplicate insert fails and
the store is unchanged. -/
theorem create_duplicate_id_witness :
    create_job wDb wDupIn "fresh-uuid" 999 = (wDb, Except.error 500) :=
  create_duplicate_id wDb wJobPending wDupIn "fresh-uuid" 999 (by decide)
    (by decide) (by decide)
